import Mathlib

/-!
Shallow embedding of the pixel-format conversion engine of
`src/irr/src/CColorConverter.cpp` (namespace `video`, class `CColorConverter`).

Buffers are modelled as `List Nat` of byte values; multi-byte pixels are
read and written in the little-endian memory order that the source file
declares canonical (see the header comment of `CColorConverter.cpp`).
Machine integers are modelled as `Nat` with an explicit `% 2^w` where a
store could truncate.  Possibly-null pointers are modelled as
`Option (List Nat)`; `none` is the null pointer.
-/

namespace video

/-- Read one byte of a buffer; out-of-range reads (a caller error in the
original) default to 0. -/
def getByte (b : List Nat) (i : Nat) : Nat := b.getD i 0

/-- Read a little-endian 16-bit value at byte offset `i`. -/
def readU16le (b : List Nat) (i : Nat) : Nat :=
  getByte b i + 256 * getByte b (i + 1)

/-- Read a little-endian 32-bit value at byte offset `i`. -/
def readU32le (b : List Nat) (i : Nat) : Nat :=
  getByte b i + 256 * getByte b (i + 1) + 65536 * getByte b (i + 2) +
    16777216 * getByte b (i + 3)

/-- The two little-endian bytes of a 16-bit store. -/
def u16leBytes (v : Nat) : List Nat := [v % 256, v / 256 % 256]

/-- The four little-endian bytes of a 32-bit store. -/
def u32leBytes (v : Nat) : List Nat :=
  [v % 256, v / 256 % 256, v / 65536 % 256, v / 16777216 % 256]

/-- Overwrite the bytes of `dst` starting at offset `off` with `l`,
clipped to the extent of `dst` (the destination keeps its length; writes
past the end of the buffer, undefined behaviour in the original, are
dropped). -/
def writeBytes (dst : List Nat) (off : Nat) (l : List Nat) : List Nat :=
  (dst.take off ++ l ++ dst.drop (off + l.length)).take dst.length

/-- Modelled from the spec: the `ECOLOR_FORMAT` tag enumeration lives in
`SColor.h`, which is not part of the sources at hand.  Constructors follow
the ColorFormat tag set of spec §3: the four stream-convertible formats
`ECF_A1R5G5B5`, `ECF_R5G6B5`, `ECF_R8G8B8`, `ECF_A8R8G8B8` (the names the
code switches on) together with the `Indexed8` palettized tag and the
`BGR888` byte-order-mirror tag, which have no dedicated codec dispatch. -/
inductive ECOLOR_FORMAT where
  | ECF_A1R5G5B5
  | ECF_R5G6B5
  | ECF_R8G8B8
  | ECF_A8R8G8B8
  | ECF_Indexed8
  | ECF_B8G8R8
deriving DecidableEq, Repr

open ECOLOR_FORMAT

/-! ### Inline pixel helpers of `SColor.h`

The five helpers below are declared in `SColor.h`, which is not among the
sources; they are modelled from the spec (§4.2). -/

/-- Modelled from the spec: `A1R5G5B5toA8R8G8B8` of `SColor.h`.
"same channel expansion, plus alpha bit expanded to 0x00/0xFF":
each 5-bit field is shifted left by 3 into the top of its 8-bit channel
and the single alpha bit becomes an alpha byte 0x00 or 0xFF. -/
def A1R5G5B5toA8R8G8B8 (c : Nat) : Nat :=
  (if c &&& 0x8000 = 0 then 0 else 0xFF000000) |||
    ((c &&& 0x7C00) <<< 9) ||| ((c &&& 0x03E0) <<< 6) ||| ((c &&& 0x001F) <<< 3)

/-- Modelled from the spec: `A1R5G5B5toR5G6B5` of `SColor.h`.
"R and B fields copied verbatim (5 bits each); G field width-expanded from
5 to 6 bits by a single left shift, alpha discarded." -/
def A1R5G5B5toR5G6B5 (c : Nat) : Nat :=
  ((c &&& 0x7FE0) <<< 1) ||| (c &&& 0x001F)

/-- Modelled from the spec: `R5G6B5toA8R8G8B8` of `SColor.h`.
"5/6/5-bit fields widened via left-shift-only expansion, alpha forced to
fully opaque (0xFF)." -/
def R5G6B5toA8R8G8B8 (c : Nat) : Nat :=
  0xFF000000 ||| ((c &&& 0xF800) <<< 8) ||| ((c &&& 0x07E0) <<< 5) |||
    ((c &&& 0x001F) <<< 3)

/-- Modelled from the spec: `R5G6B5toA1R5G5B5` of `SColor.h`.
"narrowed, dropping the LSB of G, alpha forced to a set bit." -/
def R5G6B5toA1R5G5B5 (c : Nat) : Nat :=
  0x8000 ||| ((c &&& 0xFFC0) >>> 1) ||| (c &&& 0x001F)

/-- Modelled from the spec: `A8R8G8B8toA1R5G5B5` of `SColor.h`.
"narrow each 8-bit channel by right-shifting away the low bits that do not
fit the destination field width; alpha similarly narrowed from the 8-bit
source alpha" (to the single destination alpha bit). -/
def A8R8G8B8toA1R5G5B5 (c : Nat) : Nat :=
  ((c &&& 0x80000000) >>> 16) ||| ((c &&& 0x00F80000) >>> 9) |||
    ((c &&& 0x0000F800) >>> 6) ||| ((c &&& 0x000000F8) >>> 3)

/-! ### Pixel-stream codecs (`convert_XtoY`)

Each codec maps `sN` tightly packed source pixels to the tightly packed
destination byte stream written from `dP` onward.  The byte lists are in
source memory order. -/

/-- Codec `convert_A1R5G5B5toR8G8B8`: per pixel, `dB[2] = (s & 0x7c00) >> 7`,
`dB[1] = (s & 0x03e0) >> 2`, `dB[0] = (s & 0x1f) << 3`. -/
def convert_A1R5G5B5toR8G8B8 (sP : List Nat) (sN : Nat) : List Nat :=
  (List.range sN).flatMap (fun x =>
    let s := readU16le sP (2 * x)
    [((s &&& 0x1F) <<< 3) % 256, ((s &&& 0x03E0) >>> 2) % 256,
      ((s &&& 0x7C00) >>> 7) % 256])

/-- Codec `convert_A1R5G5B5toA1R5G5B5`: `memcpy` of `sN * 2` bytes. -/
def convert_A1R5G5B5toA1R5G5B5 (sP : List Nat) (sN : Nat) : List Nat :=
  (List.range (2 * sN)).map (getByte sP)

/-- Codec `convert_A1R5G5B5toR5G6B5`: per pixel `A1R5G5B5toR5G6B5` stored as u16. -/
def convert_A1R5G5B5toR5G6B5 (sP : List Nat) (sN : Nat) : List Nat :=
  (List.range sN).flatMap (fun x =>
    u16leBytes (A1R5G5B5toR5G6B5 (readU16le sP (2 * x)) % 65536))

/-- Codec `convert_A1R5G5B5toA8R8G8B8`: per pixel `A1R5G5B5toA8R8G8B8` stored as u32. -/
def convert_A1R5G5B5toA8R8G8B8 (sP : List Nat) (sN : Nat) : List Nat :=
  (List.range sN).flatMap (fun x =>
    u32leBytes (A1R5G5B5toA8R8G8B8 (readU16le sP (2 * x)) % 4294967296))

/-- Codec `convert_R5G6B5toR5G6B5`: `memcpy` of `sN * 2` bytes. -/
def convert_R5G6B5toR5G6B5 (sP : List Nat) (sN : Nat) : List Nat :=
  (List.range (2 * sN)).map (getByte sP)

/-- Codec `convert_R5G6B5toR8G8B8`: per pixel, `dB[0] = (s & 0xf800) >> 8`,
`dB[1] = (s & 0x07e0) >> 3`, `dB[2] = (s & 0x001f) << 3`. -/
def convert_R5G6B5toR8G8B8 (sP : List Nat) (sN : Nat) : List Nat :=
  (List.range sN).flatMap (fun x =>
    let s := readU16le sP (2 * x)
    [((s &&& 0xF800) >>> 8) % 256, ((s &&& 0x07E0) >>> 3) % 256,
      ((s &&& 0x001F) <<< 3) % 256])

/-- Codec `convert_R5G6B5toA8R8G8B8`: per pixel `R5G6B5toA8R8G8B8` stored as u32. -/
def convert_R5G6B5toA8R8G8B8 (sP : List Nat) (sN : Nat) : List Nat :=
  (List.range sN).flatMap (fun x =>
    u32leBytes (R5G6B5toA8R8G8B8 (readU16le sP (2 * x)) % 4294967296))

/-- Codec `convert_R5G6B5toA1R5G5B5`: per pixel `R5G6B5toA1R5G5B5` stored as u16. -/
def convert_R5G6B5toA1R5G5B5 (sP : List Nat) (sN : Nat) : List Nat :=
  (List.range sN).flatMap (fun x =>
    u16leBytes (R5G6B5toA1R5G5B5 (readU16le sP (2 * x)) % 65536))

/-- Codec `convert_A8R8G8B8toA8R8G8B8`: `memcpy` of `sN * 4` bytes. -/
def convert_A8R8G8B8toA8R8G8B8 (sP : List Nat) (sN : Nat) : List Nat :=
  (List.range (4 * sN)).map (getByte sP)

/-- Codec `convert_A8R8G8B8toR8G8B8`: per pixel, `dB[0] = sB[2]`, `dB[1] = sB[1]`,
`dB[2] = sB[0]` (the source byte 3 is alpha and is dropped). -/
def convert_A8R8G8B8toR8G8B8 (sP : List Nat) (sN : Nat) : List Nat :=
  (List.range sN).flatMap (fun x =>
    [getByte sP (4 * x + 2), getByte sP (4 * x + 1), getByte sP (4 * x)])

/-- Codec `convert_A8R8G8B8toR5G6B5`: per pixel, `r = sB[2] >> 3`, `g = sB[1] >> 2`,
`b = sB[0] >> 3`, `dB[0] = (r << 11) | (g << 5) | b` stored as u16. -/
def convert_A8R8G8B8toR5G6B5 (sP : List Nat) (sN : Nat) : List Nat :=
  (List.range sN).flatMap (fun x =>
    let r := getByte sP (4 * x + 2) >>> 3
    let g := getByte sP (4 * x + 1) >>> 2
    let b := getByte sP (4 * x) >>> 3
    u16leBytes (((r <<< 11) ||| (g <<< 5) ||| b) % 65536))

/-- Codec `convert_A8R8G8B8toA1R5G5B5`: per pixel `A8R8G8B8toA1R5G5B5` stored as u16. -/
def convert_A8R8G8B8toA1R5G5B5 (sP : List Nat) (sN : Nat) : List Nat :=
  (List.range sN).flatMap (fun x =>
    u16leBytes (A8R8G8B8toA1R5G5B5 (readU32le sP (4 * x)) % 65536))

/-- Codec `convert_R8G8B8toR8G8B8`: `memcpy` of `sN * 3` bytes. -/
def convert_R8G8B8toR8G8B8 (sP : List Nat) (sN : Nat) : List Nat :=
  (List.range (3 * sN)).map (getByte sP)

/-- Codec `convert_R8G8B8toA8R8G8B8`: per pixel the u32
`0xff000000 | (sB[0] << 16) | (sB[1] << 8) | sB[2]` is stored. -/
def convert_R8G8B8toA8R8G8B8 (sP : List Nat) (sN : Nat) : List Nat :=
  (List.range sN).flatMap (fun x =>
    u32leBytes ((0xFF000000 ||| (getByte sP (3 * x) <<< 16) |||
      (getByte sP (3 * x + 1) <<< 8) ||| getByte sP (3 * x + 2)) % 4294967296))

/-- Codec `convert_R8G8B8toA1R5G5B5`: per pixel, `r = sB[0] >> 3`, `g = sB[1] >> 3`,
`b = sB[2] >> 3`, `dB[0] = 0x8000 | (r << 10) | (g << 5) | b` stored as u16. -/
def convert_R8G8B8toA1R5G5B5 (sP : List Nat) (sN : Nat) : List Nat :=
  (List.range sN).flatMap (fun x =>
    let r := getByte sP (3 * x) >>> 3
    let g := getByte sP (3 * x + 1) >>> 3
    let b := getByte sP (3 * x + 2) >>> 3
    u16leBytes ((0x8000 ||| (r <<< 10) ||| (g <<< 5) ||| b) % 65536))

/-- Codec `convert_R8G8B8toR5G6B5`: per pixel, `r = sB[0] >> 3`, `g = sB[1] >> 2`,
`b = sB[2] >> 3`, `dB[0] = (r << 11) | (g << 5) | b` stored as u16. -/
def convert_R8G8B8toR5G6B5 (sP : List Nat) (sN : Nat) : List Nat :=
  (List.range sN).flatMap (fun x =>
    let r := getByte sP (3 * x) >>> 3
    let g := getByte sP (3 * x + 1) >>> 2
    let b := getByte sP (3 * x + 2) >>> 3
    u16leBytes (((r <<< 11) ||| (g <<< 5) ||| b) % 65536))

/-- Entry point `CColorConverter::canConvertFormat`: the nested switch of the source,
translated case by case; every `default` branch falls through to `false`. -/
def canConvertFormat (sourceFormat destFormat : ECOLOR_FORMAT) : Bool :=
  match sourceFormat with
  | ECF_A1R5G5B5 =>
    match destFormat with
    | ECF_A1R5G5B5 | ECF_R5G6B5 | ECF_A8R8G8B8 | ECF_R8G8B8 => true
    | _ => false
  | ECF_R5G6B5 =>
    match destFormat with
    | ECF_A1R5G5B5 | ECF_R5G6B5 | ECF_A8R8G8B8 | ECF_R8G8B8 => true
    | _ => false
  | ECF_A8R8G8B8 =>
    match destFormat with
    | ECF_A1R5G5B5 | ECF_R5G6B5 | ECF_A8R8G8B8 | ECF_R8G8B8 => true
    | _ => false
  | ECF_R8G8B8 =>
    match destFormat with
    | ECF_A1R5G5B5 | ECF_R5G6B5 | ECF_A8R8G8B8 | ECF_R8G8B8 => true
    | _ => false
  | _ => false

/-- Entry point `CColorConverter::convert_viaFormat`: the nested dispatch switch of the
source.  A populated case writes the codec's output stream into the
destination buffer starting at its origin; every `default` branch writes
nothing and returns the destination unchanged. -/
def convert_viaFormat (sP : List Nat) (sF : ECOLOR_FORMAT) (sN : Nat)
    (dP : List Nat) (dF : ECOLOR_FORMAT) : List Nat :=
  match sF with
  | ECF_A1R5G5B5 =>
    match dF with
    | ECF_A1R5G5B5 => writeBytes dP 0 (convert_A1R5G5B5toA1R5G5B5 sP sN)
    | ECF_R5G6B5 => writeBytes dP 0 (convert_A1R5G5B5toR5G6B5 sP sN)
    | ECF_A8R8G8B8 => writeBytes dP 0 (convert_A1R5G5B5toA8R8G8B8 sP sN)
    | ECF_R8G8B8 => writeBytes dP 0 (convert_A1R5G5B5toR8G8B8 sP sN)
    | _ => dP
  | ECF_R5G6B5 =>
    match dF with
    | ECF_A1R5G5B5 => writeBytes dP 0 (convert_R5G6B5toA1R5G5B5 sP sN)
    | ECF_R5G6B5 => writeBytes dP 0 (convert_R5G6B5toR5G6B5 sP sN)
    | ECF_A8R8G8B8 => writeBytes dP 0 (convert_R5G6B5toA8R8G8B8 sP sN)
    | ECF_R8G8B8 => writeBytes dP 0 (convert_R5G6B5toR8G8B8 sP sN)
    | _ => dP
  | ECF_A8R8G8B8 =>
    match dF with
    | ECF_A1R5G5B5 => writeBytes dP 0 (convert_A8R8G8B8toA1R5G5B5 sP sN)
    | ECF_R5G6B5 => writeBytes dP 0 (convert_A8R8G8B8toR5G6B5 sP sN)
    | ECF_A8R8G8B8 => writeBytes dP 0 (convert_A8R8G8B8toA8R8G8B8 sP sN)
    | ECF_R8G8B8 => writeBytes dP 0 (convert_A8R8G8B8toR8G8B8 sP sN)
    | _ => dP
  | ECF_R8G8B8 =>
    match dF with
    | ECF_A1R5G5B5 => writeBytes dP 0 (convert_R8G8B8toA1R5G5B5 sP sN)
    | ECF_R5G6B5 => writeBytes dP 0 (convert_R8G8B8toR5G6B5 sP sN)
    | ECF_A8R8G8B8 => writeBytes dP 0 (convert_R8G8B8toA8R8G8B8 sP sN)
    | ECF_R8G8B8 => writeBytes dP 0 (convert_R8G8B8toR8G8B8 sP sN)
    | _ => dP
  | _ => dP

/-! ### Scanline drivers

Each of the five `convertNBitToMBit` entry points walks the source buffer
row by row; the destination pointer either advances forward after each row
(`flip = false`) or starts `lineWidth * height` past the origin and is
decremented by `lineWidth` before each row (`flip = true`).  The shared
loop below is the common row-walking shape of those five functions; each
entry point instantiates it with its own row payload, destination line
width and source stride (all in bytes). -/

/-- The common row loop: `n` rows remain, the next source row starts at
byte `inOff`, `outOff` is the current destination cursor, `row i` is the
destination byte payload of the source row starting at byte `i`,
`lw` the destination line width and `ss` the source stride per row. -/
def blitLoop (row : Nat → List Nat) (lw ss : Nat) (flip : Bool) :
    Nat → Nat → Nat → List Nat → List Nat
  | 0, _, _, dst => dst
  | n + 1, inOff, outOff, dst =>
    let wOff := if flip then outOff - lw else outOff
    blitLoop row lw ss flip n (inOff + ss)
      (if flip then wOff else outOff + lw) (writeBytes dst wOff (row inOff))

/-- One source row of `convert8BitTo24Bit` starting at source byte `inOff`:
the little-endian palette branch writes `palette[(c << 2) + 2]`,
`palette[(c << 2) + 1]`, `palette[(c << 2) + 0]`; the null-palette branch
replicates the source byte into all three destination bytes. -/
def row8to24 (inB : List Nat) (palette : Option (List Nat)) (width inOff : Nat) :
    List Nat :=
  (List.range width).flatMap (fun k =>
    let c := getByte inB (inOff + k)
    match palette with
    | some p => [getByte p (4 * c + 2), getByte p (4 * c + 1), getByte p (4 * c)]
    | none => [c, c, c])

/-- One source row of `convert8BitTo32Bit`: the palette branch stores the
32-bit palette entry `((u32*)palette)[c]`; the null-palette branch stores
the u32 `0xFF000000 | c << 16 | c << 8 | c`. -/
def row8to32 (inB : List Nat) (palette : Option (List Nat)) (width inOff : Nat) :
    List Nat :=
  (List.range width).flatMap (fun k =>
    let c := getByte inB (inOff + k)
    match palette with
    | some p => u32leBytes (readU32le p (4 * c) % 4294967296)
    | none => u32leBytes ((0xFF000000 ||| (c <<< 16) ||| (c <<< 8) ||| c) % 4294967296))

/-- One source row of `convert16BitTo16Bit`: a `memcpy` of
`width * sizeof(s16)` bytes (the little-endian build). -/
def row16 (inB : List Nat) (width inOff : Nat) : List Nat :=
  (List.range (2 * width)).map (fun i => getByte inB (inOff + i))

/-- One source row of `convert24BitTo24Bit`: with `bgr` set each pixel's
first and third byte are exchanged, otherwise a `memcpy` of `3 * width`
bytes. -/
def row24 (inB : List Nat) (bgr : Bool) (width inOff : Nat) : List Nat :=
  if bgr then
    (List.range width).flatMap (fun k =>
      [getByte inB (inOff + 3 * k + 2), getByte inB (inOff + 3 * k + 1),
        getByte inB (inOff + 3 * k)])
  else
    (List.range (3 * width)).map (fun i => getByte inB (inOff + i))

/-- One source row of `convert32BitTo32Bit`: a `memcpy` of
`width * sizeof(s32)` bytes (the little-endian build). -/
def row32 (inB : List Nat) (width inOff : Nat) : List Nat :=
  (List.range (4 * width)).map (fun i => getByte inB (inOff + i))

/-- Entry point `CColorConverter::convert8BitTo24Bit`.  Null source or destination is a
no-op; otherwise rows of `3 * width` destination bytes are written with the
flip rule, and the source advances by `width` consumed bytes plus `linepad`
bytes per row. -/
def convert8BitTo24Bit (inP outP : Option (List Nat)) (width height : Nat)
    (palette : Option (List Nat)) (linepad : Nat) (flip : Bool) :
    Option (List Nat) :=
  match inP, outP with
  | some inB, some outB =>
    some (blitLoop (row8to24 inB palette width) (3 * width) (width + linepad)
      flip height 0 (if flip then 3 * width * height else 0) outB)
  | _, _ => outP

/-- Entry point `CColorConverter::convert8BitTo32Bit`.  Null source or destination is a
no-op; otherwise rows of `4 * width` destination bytes are written with the
flip rule, and the source advances by `width + linepad` bytes per row. -/
def convert8BitTo32Bit (inP outP : Option (List Nat)) (width height : Nat)
    (palette : Option (List Nat)) (linepad : Nat) (flip : Bool) :
    Option (List Nat) :=
  match inP, outP with
  | some inB, some outB =>
    some (blitLoop (row8to32 inB palette width) (4 * width) (width + linepad)
      flip height 0 (if flip then 4 * width * height else 0) outB)
  | _, _ => outP

/-- Entry point `CColorConverter::convert16BitTo16Bit`.  The pointers are `s16*`, so in
bytes every pointer step is doubled: rows of `2 * width` bytes, and
`in += width; in += linepad` advances the source by `2 * width + 2 * linepad`
bytes per row. -/
def convert16BitTo16Bit (inP outP : Option (List Nat)) (width height linepad : Nat)
    (flip : Bool) : Option (List Nat) :=
  match inP, outP with
  | some inB, some outB =>
    some (blitLoop (row16 inB width) (2 * width) (2 * width + 2 * linepad)
      flip height 0 (if flip then 2 * width * height else 0) outB)
  | _, _ => outP

/-- Entry point `CColorConverter::convert24BitTo24Bit`.  `u8*` pointers: rows of
`3 * width` bytes, source advances by `3 * width + linepad` bytes per row. -/
def convert24BitTo24Bit (inP outP : Option (List Nat)) (width height linepad : Nat)
    (flip bgr : Bool) : Option (List Nat) :=
  match inP, outP with
  | some inB, some outB =>
    some (blitLoop (row24 inB bgr width) (3 * width) (3 * width + linepad)
      flip height 0 (if flip then 3 * width * height else 0) outB)
  | _, _ => outP

/-- Entry point `CColorConverter::convert32BitTo32Bit`.  The pointers are `s32*`, so in
bytes every pointer step is quadrupled: rows of `4 * width` bytes, and
`in += width; in += linepad` advances the source by `4 * width + 4 * linepad`
bytes per row. -/
def convert32BitTo32Bit (inP outP : Option (List Nat)) (width height linepad : Nat)
    (flip : Bool) : Option (List Nat) :=
  match inP, outP with
  | some inB, some outB =>
    some (blitLoop (row32 inB width) (4 * width) (4 * width + 4 * linepad)
      flip height 0 (if flip then 4 * width * height else 0) outB)
  | _, _ => outP

/-! ### Resizing converter -/

/-- The per-pixel expansion on the line
`t = (((t >> 15) & 0x1) << 31) | (((t >> 10) & 0x1F) << 19) | (((t >> 5) & 0x1F) << 11) | (t & 0x1F) << 3`
of `convert16bitToA8R8G8B8andResize`.  The C code reads the pixel through
`s16` and sign-extends it, but every extracted field lies below bit 16, so
the result depends only on the low 16 bits and coincides with this
function of the u16 pixel value. -/
def resizeExpand (t : Nat) : Nat :=
  (((t >>> 15) &&& 0x1) <<< 31) ||| (((t >>> 10) &&& 0x1F) <<< 19) |||
    (((t >>> 5) &&& 0x1F) <<< 11) ||| ((t &&& 0x1F) <<< 3)

/-- Inner `y` loop of `convert16bitToA8R8G8B8andResize` for one column `x`:
`n` rows remain.  The `f32` accumulator `sy` (stepped by
`sourceYStep = currentHeight / newHeight` per row) is modelled as the exact
fraction `syNum / newHeight`, stepped by adding `currentHeight` to the
numerator; for the power-of-two ratios exercised by the claims every
intermediate `f32` value is exactly representable, so the two agree.  The
truncating `(s32)` casts of the source are floors of the non-negative
operands, and the index
`(s32)(((s32)sy) * currentWidth + x * sourceXStep)` equals
`⌊sy⌋ * currentWidth + ⌊x * currentWidth / newWidth⌋` because the first
summand is an integer; both floors are `Nat` division here. -/
def resizeColumn (inB : List Nat) (currentWidth currentHeight newWidth newHeight : Nat)
    (x : Nat) : Nat → Nat → Nat → List Nat → List Nat
  | 0, _, _, out => out
  | n + 1, y, syNum, out =>
    let idx := (syNum / newHeight) * currentWidth + x * currentWidth / newWidth
    let t := resizeExpand (inB.getD idx 0)
    resizeColumn inB currentWidth currentHeight newWidth newHeight x n (y + 1)
      (syNum + currentHeight) (out.set (y * newWidth + x) t)

/-- Outer `x` loop of `convert16bitToA8R8G8B8andResize`: `n` columns remain,
the next column index is `x`; each column restarts the `sy` accumulator
at `0`. -/
def resizeAllColumns (inB : List Nat)
    (currentWidth currentHeight newWidth newHeight : Nat) :
    Nat → Nat → List Nat → List Nat
  | 0, _, out => out
  | n + 1, x, out =>
    resizeAllColumns inB currentWidth currentHeight newWidth newHeight n (x + 1)
      (resizeColumn inB currentWidth currentHeight newWidth newHeight x
        newHeight 0 0 out)

/-- Entry point `CColorConverter::convert16bitToA8R8G8B8andResize`.  The source is a
list of 16-bit pixel values, the destination a list of 32-bit pixel values
(the code indexes both buffers element-wise).  `newWidth = 0` or
`newHeight = 0` is a no-op. -/
def convert16bitToA8R8G8B8andResize (inB out : List Nat)
    (newWidth newHeight currentWidth currentHeight : Nat) : List Nat :=
  if newWidth = 0 ∨ newHeight = 0 then out
  else
    resizeAllColumns inB currentWidth currentHeight newWidth newHeight
      newWidth 0 out

/-- Membership in the 4-element format set
`{ARGB1555, RGB565, ARGB8888, RGB888}` that spec §4.1 describes as the
support of the capability matrix. -/
def streamConvertible (f : ECOLOR_FORMAT) : Bool :=
  match f with
  | ECF_A1R5G5B5 | ECF_R5G6B5 | ECF_A8R8G8B8 | ECF_R8G8B8 => true
  | _ => false

/-! ## Buffer lemmas -/

theorem writeBytes_eq_of_le (dst : List Nat) (off : Nat) (l : List Nat)
    (h : off + l.length ≤ dst.length) :
    writeBytes dst off l = dst.take off ++ l ++ dst.drop (off + l.length) := by
  have hlen : (dst.take off ++ l ++ dst.drop (off + l.length)).length = dst.length := by
    simp only [List.length_append, List.length_take, List.length_drop]
    omega
  rw [writeBytes, ← hlen, List.take_length]

theorem writeBytes_nil (dst : List Nat) (off : Nat) : writeBytes dst off [] = dst := by
  simp [writeBytes]

theorem length_writeBytes_of_le (dst : List Nat) (off : Nat) (l : List Nat)
    (h : off + l.length ≤ dst.length) :
    (writeBytes dst off l).length = dst.length := by
  rw [writeBytes_eq_of_le dst off l h]
  simp only [List.length_append, List.length_take, List.length_drop]
  omega

/-! ## Row-loop lemmas -/

theorem blitLoop_empty_rows (row : Nat → List Nat) (lw ss : Nat) (flip : Bool)
    (hrow : ∀ i, row i = []) :
    ∀ (n inOff outOff : Nat) (dst : List Nat),
      blitLoop row lw ss flip n inOff outOff dst = dst := by
  intro n
  induction n with
  | zero => intro inOff outOff dst; rfl
  | succ n ih =>
    intro inOff outOff dst
    rw [blitLoop, hrow, writeBytes_nil, ih]

theorem blitLoop_false_eq (row : Nat → List Nat) (lw ss : Nat)
    (hrow : ∀ i, (row i).length = lw) :
    ∀ (n inOff outOff : Nat) (dst : List Nat), outOff + n * lw ≤ dst.length →
      blitLoop row lw ss false n inOff outOff dst =
        dst.take outOff ++
          ((List.range n).map (fun k => row (inOff + k * ss))).flatten ++
          dst.drop (outOff + n * lw) := by
  intro n
  induction n with
  | zero =>
    intro inOff outOff dst h
    simp [blitLoop, List.take_append_drop]
  | succ n ih =>
    intro inOff outOff dst h
    rw [Nat.succ_mul] at h
    have hw : writeBytes dst outOff (row inOff) =
        dst.take outOff ++ row inOff ++ dst.drop (outOff + lw) := by
      rw [writeBytes_eq_of_le dst outOff (row inOff) (by rw [hrow]; omega), hrow]
    have hTlen : (dst.take outOff ++ row inOff).length = outOff + lw := by
      simp only [List.length_append, List.length_take, hrow]
      omega
    have hlen1 : (dst.take outOff ++ row inOff ++ dst.drop (outOff + lw)).length
        = dst.length := by
      simp only [List.length_append, List.length_take, List.length_drop, hrow]
      omega
    rw [blitLoop]
    simp only [Bool.false_eq_true, if_false]
    rw [hw, ih (inOff + ss) (outOff + lw) _ (by rw [hlen1]; omega)]
    have htake : (dst.take outOff ++ row inOff ++ dst.drop (outOff + lw)).take
        (outOff + lw) = dst.take outOff ++ row inOff :=
      List.take_left' hTlen
    have hdrop : (dst.take outOff ++ row inOff ++ dst.drop (outOff + lw)).drop
        (outOff + lw + n * lw) = dst.drop (outOff + lw + n * lw) := by
      rw [show outOff + lw + n * lw = (dst.take outOff ++ row inOff).length + n * lw
          from by rw [hTlen], List.drop_append, List.drop_drop, hTlen]
    rw [htake, hdrop]
    have hsplit : ((List.range (n + 1)).map (fun k => row (inOff + k * ss))).flatten
        = row inOff ++
          ((List.range n).map (fun k => row (inOff + ss + k * ss))).flatten := by
      rw [List.range_succ_eq_map, List.map_cons, List.flatten_cons, List.map_map]
      congr 1
      · simp
      · congr 1
        apply List.map_congr_left
        intro k _
        simp only [Function.comp_apply]
        congr 1
        rw [Nat.succ_mul]
        ring
    rw [hsplit]
    have harith : outOff + (n + 1) * lw = outOff + lw + n * lw := by
      rw [Nat.succ_mul]
      ring
    rw [harith]
    simp [List.append_assoc]

theorem blitLoop_true_eq (row : Nat → List Nat) (lw ss : Nat)
    (hrow : ∀ i, (row i).length = lw) :
    ∀ (n inOff outOff : Nat) (dst : List Nat),
      n * lw ≤ outOff → outOff ≤ dst.length →
      blitLoop row lw ss true n inOff outOff dst =
        dst.take (outOff - n * lw) ++
          ((List.range n).map (fun k => row (inOff + (n - 1 - k) * ss))).flatten ++
          dst.drop outOff := by
  intro n
  induction n with
  | zero =>
    intro inOff outOff dst h1 h2
    simp [blitLoop, List.take_append_drop]
  | succ n ih =>
    intro inOff outOff dst h1 h2
    have hlw : lw ≤ outOff := by rw [Nat.succ_mul] at h1; omega
    have hnlw : n * lw ≤ outOff - lw := by rw [Nat.succ_mul] at h1; omega
    have hw : writeBytes dst (outOff - lw) (row inOff) =
        dst.take (outOff - lw) ++ row inOff ++ dst.drop outOff := by
      rw [writeBytes_eq_of_le dst (outOff - lw) (row inOff) (by rw [hrow]; omega),
        hrow]
      congr 2
      omega
    rw [blitLoop]
    simp only [reduceIte]
    rw [hw]
    have hlen1 : (dst.take (outOff - lw) ++ row inOff ++ dst.drop outOff).length
        = dst.length := by
      simp only [List.length_append, List.length_take, List.length_drop, hrow]
      omega
    rw [ih (inOff + ss) (outOff - lw) _ hnlw (by omega : outOff - lw ≤ _)]
    have htake : (dst.take (outOff - lw) ++ row inOff ++ dst.drop outOff).take
        (outOff - lw - n * lw) = dst.take (outOff - lw - n * lw) := by
      rw [List.append_assoc, List.take_append_of_le_length
        (by simp only [List.length_take]; omega), List.take_take,
        Nat.min_eq_left (by omega)]
    have hdrop : (dst.take (outOff - lw) ++ row inOff ++ dst.drop outOff).drop
        (outOff - lw) = row inOff ++ dst.drop outOff := by
      rw [List.append_assoc, List.drop_left'
        (by simp only [List.length_take]; omega)]
    rw [htake, hdrop]
    have hsplit : ((List.range (n + 1)).map
          (fun k => row (inOff + (n + 1 - 1 - k) * ss))).flatten
        = ((List.range n).map (fun k => row (inOff + ss + (n - 1 - k) * ss))).flatten
          ++ row inOff := by
      rw [List.range_succ, List.map_append, List.flatten_append]
      congr 1
      · congr 1
        apply List.map_congr_left
        intro k hk
        rw [List.mem_range] at hk
        congr 1
        have hk1 : n + 1 - 1 - k = (n - 1 - k) + 1 := by omega
        rw [hk1]
        ring
      · simp
    rw [hsplit]
    have harith : outOff - (n + 1) * lw = outOff - lw - n * lw := by
      rw [Nat.succ_mul]; omega
    rw [harith]
    simp [List.append_assoc]

/-- Full-buffer corollary of the two row-loop shapes: a destination of the
exact extent `height * lineWidth` becomes the concatenation, destination
row by destination row, of the row payloads taken at source offsets given
by the flip rule. -/
theorem blitLoop_full (row : Nat → List Nat) (lw ss : Nat) (flip : Bool)
    (hrow : ∀ i, (row i).length = lw) (n : Nat) (dst : List Nat)
    (hdst : dst.length = n * lw) :
    blitLoop row lw ss flip n 0 (if flip then n * lw else 0) dst =
      ((List.range n).map
        (fun r => row ((if flip then n - 1 - r else r) * ss))).flatten := by
  cases flip with
  | false =>
    simp only [Bool.false_eq_true, if_false]
    rw [blitLoop_false_eq row lw ss hrow n 0 0 dst (by omega)]
    have hnil : dst.drop (0 + n * lw) = [] := List.drop_of_length_le (by omega)
    rw [hnil]
    simp
  | true =>
    simp only [if_true]
    rw [blitLoop_true_eq row lw ss hrow n 0 (n * lw) dst (le_refl _) (by omega)]
    have hnil : dst.drop (n * lw) = [] := List.drop_of_length_le (by omega)
    rw [hnil]
    simp

/-! ## Row payload lengths -/

theorem length_flatMap_const (f : Nat → List Nat) (c : Nat)
    (hf : ∀ k, (f k).length = c) :
    ∀ n : Nat, ((List.range n).flatMap f).length = n * c := by
  intro n
  induction n with
  | zero => simp
  | succ n ih =>
    rw [List.range_succ, List.flatMap_append, List.length_append, ih]
    simp only [List.flatMap_cons, List.flatMap_nil, List.append_nil, hf]
    rw [Nat.succ_mul]

theorem row8to24_length (inB : List Nat) (pal : Option (List Nat)) (w : Nat) :
    ∀ i, (row8to24 inB pal w i).length = 3 * w := by
  intro i
  rw [row8to24, length_flatMap_const _ 3 (fun k => by cases pal <;> rfl), Nat.mul_comm]

theorem row8to32_length (inB : List Nat) (pal : Option (List Nat)) (w : Nat) :
    ∀ i, (row8to32 inB pal w i).length = 4 * w := by
  intro i
  rw [row8to32, length_flatMap_const _ 4 (fun k => by cases pal <;> rfl), Nat.mul_comm]

theorem row16_length (inB : List Nat) (w : Nat) :
    ∀ i, (row16 inB w i).length = 2 * w := by
  intro i
  simp [row16]

theorem row24_length (inB : List Nat) (bgr : Bool) (w : Nat) :
    ∀ i, (row24 inB bgr w i).length = 3 * w := by
  intro i
  cases bgr with
  | false => simp [row24]
  | true =>
    rw [row24]
    simp only [if_true]
    rw [length_flatMap_const _ 3 (fun k => by rfl), Nat.mul_comm]

theorem row32_length (inB : List Nat) (w : Nat) :
    ∀ i, (row32 inB w i).length = 4 * w := by
  intro i
  simp [row32]

/-! ## Scanline characterizations

Each of the five entry points, on a destination of the exact pixel extent,
produces the concatenation over destination rows `r` of the row payload of
source row `if flip then height - 1 - r else r`; the source offset of row
`y` is `y * stride` with the per-function stride in bytes. -/

theorem convert8BitTo24Bit_eq (inB outB : List Nat) (width height : Nat)
    (pal : Option (List Nat)) (linepad : Nat) (flip : Bool)
    (hlen : outB.length = 3 * width * height) :
    convert8BitTo24Bit (some inB) (some outB) width height pal linepad flip =
      some (((List.range height).map (fun r =>
        row8to24 inB pal width
          ((if flip then height - 1 - r else r) * (width + linepad)))).flatten) := by
  have hfull := blitLoop_full (row8to24 inB pal width) (3 * width) (width + linepad)
    flip (row8to24_length inB pal width) height outB (by rw [hlen]; ring)
  simp only [convert8BitTo24Bit]
  rw [show 3 * width * height = height * (3 * width) from by ring, hfull]

theorem convert8BitTo32Bit_eq (inB outB : List Nat) (width height : Nat)
    (pal : Option (List Nat)) (linepad : Nat) (flip : Bool)
    (hlen : outB.length = 4 * width * height) :
    convert8BitTo32Bit (some inB) (some outB) width height pal linepad flip =
      some (((List.range height).map (fun r =>
        row8to32 inB pal width
          ((if flip then height - 1 - r else r) * (width + linepad)))).flatten) := by
  have hfull := blitLoop_full (row8to32 inB pal width) (4 * width) (width + linepad)
    flip (row8to32_length inB pal width) height outB (by rw [hlen]; ring)
  simp only [convert8BitTo32Bit]
  rw [show 4 * width * height = height * (4 * width) from by ring, hfull]

theorem convert16BitTo16Bit_eq (inB outB : List Nat) (width height linepad : Nat)
    (flip : Bool) (hlen : outB.length = 2 * width * height) :
    convert16BitTo16Bit (some inB) (some outB) width height linepad flip =
      some (((List.range height).map (fun r =>
        row16 inB width
          ((if flip then height - 1 - r else r) *
            (2 * width + 2 * linepad)))).flatten) := by
  have hfull := blitLoop_full (row16 inB width) (2 * width) (2 * width + 2 * linepad)
    flip (row16_length inB width) height outB (by rw [hlen]; ring)
  simp only [convert16BitTo16Bit]
  rw [show 2 * width * height = height * (2 * width) from by ring, hfull]

theorem convert24BitTo24Bit_eq (inB outB : List Nat) (width height linepad : Nat)
    (flip bgr : Bool) (hlen : outB.length = 3 * width * height) :
    convert24BitTo24Bit (some inB) (some outB) width height linepad flip bgr =
      some (((List.range height).map (fun r =>
        row24 inB bgr width
          ((if flip then height - 1 - r else r) *
            (3 * width + linepad)))).flatten) := by
  have hfull := blitLoop_full (row24 inB bgr width) (3 * width) (3 * width + linepad)
    flip (row24_length inB bgr width) height outB (by rw [hlen]; ring)
  simp only [convert24BitTo24Bit]
  rw [show 3 * width * height = height * (3 * width) from by ring, hfull]

theorem convert32BitTo32Bit_eq (inB outB : List Nat) (width height linepad : Nat)
    (flip : Bool) (hlen : outB.length = 4 * width * height) :
    convert32BitTo32Bit (some inB) (some outB) width height linepad flip =
      some (((List.range height).map (fun r =>
        row32 inB width
          ((if flip then height - 1 - r else r) *
            (4 * width + 4 * linepad)))).flatten) := by
  have hfull := blitLoop_full (row32 inB width) (4 * width) (4 * width + 4 * linepad)
    flip (row32_length inB width) height outB (by rw [hlen]; ring)
  simp only [convert32BitTo32Bit]
  rw [show 4 * width * height = height * (4 * width) from by ring, hfull]

/-- Reading back the four little-endian bytes of a 32-bit store recovers
the stored value. -/
theorem readU32le_u32leBytes (v : Nat) (hv : v < 4294967296) :
    readU32le (u32leBytes v) 0 = v := by
  show v % 256 + 256 * (v / 256 % 256) + 65536 * (v / 65536 % 256) +
    16777216 * (v / 16777216 % 256) = v
  omega

/-! ## Claim theorems -/

/-- C1: the claim states that `convert_A1R5G5B5toR8G8B8` writes, per pixel,
byte 0 = R (source bits 10..14 shifted left by 3), byte 1 = G and
byte 2 = B.  On the single source pixel 0x7C00 (R = 0x1F, G = B = 0) the
code produces the bytes [0x00, 0x00, 0xF8]: the R field lands in byte 2
and the B field in byte 0, refuting the claimed memory order (and the
source file's own header comment, which promises [R][G][B]). -/
theorem convert_A1R5G5B5toR8G8B8_writes_bgr :
    convert_A1R5G5B5toR8G8B8 [0x00, 0x7C] 1 = [0x00, 0x00, 0xF8] ∧
    convert_A1R5G5B5toR8G8B8 [0x00, 0x7C] 1 ≠ [0xF8, 0x00, 0x00] := by
  decide

/-- C5: `convert_A1R5G5B5toR8G8B8` maps the single input pixel 0x8000
(alpha set, R = G = B = 0) to the output bytes [0x00, 0x00, 0x00] and the
single input pixel 0x7FFF (alpha clear, R = G = B = 0x1F) to
[0xF8, 0xF8, 0xF8]. -/
theorem convert_A1R5G5B5toR8G8B8_test_vectors :
    convert_A1R5G5B5toR8G8B8 [0x00, 0x80] 1 = [0x00, 0x00, 0x00] ∧
    convert_A1R5G5B5toR8G8B8 [0xFF, 0x7F] 1 = [0xF8, 0xF8, 0xF8] := by
  decide

/-- C4: converting the ARGB8888 pixel A = 0xFF, R = 0xF8, G = 0xFC,
B = 0xF8 (memory bytes [B][G][R][A] = [0xF8, 0xFC, 0xF8, 0xFF]) down to
RGB565 with `convert_A8R8G8B8toR5G6B5` and back up with
`convert_R5G6B5toA8R8G8B8` returns exactly the original pixel: the
round-tripped 32-bit value is 0xFFF8FCF8. -/
theorem a8r8g8b8_r5g6b5_roundtrip :
    convert_R5G6B5toA8R8G8B8
        (convert_A8R8G8B8toR5G6B5 [0xF8, 0xFC, 0xF8, 0xFF] 1) 1 =
      [0xF8, 0xFC, 0xF8, 0xFF] ∧
    readU32le (convert_R5G6B5toA8R8G8B8
        (convert_A8R8G8B8toR5G6B5 [0xF8, 0xFC, 0xF8, 0xFF] 1) 1) 0 =
      0xFFF8FCF8 := by
  decide

/-- C2: `canConvertFormat` returns true exactly when both formats lie in
the set {ARGB1555, RGB565, ARGB8888, RGB888} — all 16 ordered pairs — and
false for every other pair; in particular `canConvertFormat` is false on
(Indexed8, RGB888) even though the dedicated codec-style entry point
`convert8BitTo24Bit` exists. -/
theorem canConvertFormat_iff_streamConvertible :
    (∀ s d : ECOLOR_FORMAT,
        canConvertFormat s d = (streamConvertible s && streamConvertible d)) ∧
    canConvertFormat ECF_Indexed8 ECF_R8G8B8 = false := by
  constructor
  · intro s d
    cases s <;> cases d <;> rfl
  · rfl

/-- C3: for every format pair on which `canConvertFormat` is false,
`convert_viaFormat` returns the destination buffer unchanged (silent
no-op, no error value); for each of the 16 supported ordered pairs it
writes exactly the output of the matching pixel-stream codec into the
destination. -/
theorem convert_viaFormat_dispatch :
    (∀ sF dF : ECOLOR_FORMAT, canConvertFormat sF dF = false →
        ∀ (sP : List Nat) (sN : Nat) (dP : List Nat),
          convert_viaFormat sP sF sN dP dF = dP) ∧
    (∀ (sP : List Nat) (sN : Nat) (dP : List Nat),
        convert_viaFormat sP ECF_A1R5G5B5 sN dP ECF_A1R5G5B5 =
          writeBytes dP 0 (convert_A1R5G5B5toA1R5G5B5 sP sN) ∧
        convert_viaFormat sP ECF_A1R5G5B5 sN dP ECF_R5G6B5 =
          writeBytes dP 0 (convert_A1R5G5B5toR5G6B5 sP sN) ∧
        convert_viaFormat sP ECF_A1R5G5B5 sN dP ECF_A8R8G8B8 =
          writeBytes dP 0 (convert_A1R5G5B5toA8R8G8B8 sP sN) ∧
        convert_viaFormat sP ECF_A1R5G5B5 sN dP ECF_R8G8B8 =
          writeBytes dP 0 (convert_A1R5G5B5toR8G8B8 sP sN) ∧
        convert_viaFormat sP ECF_R5G6B5 sN dP ECF_A1R5G5B5 =
          writeBytes dP 0 (convert_R5G6B5toA1R5G5B5 sP sN) ∧
        convert_viaFormat sP ECF_R5G6B5 sN dP ECF_R5G6B5 =
          writeBytes dP 0 (convert_R5G6B5toR5G6B5 sP sN) ∧
        convert_viaFormat sP ECF_R5G6B5 sN dP ECF_A8R8G8B8 =
          writeBytes dP 0 (convert_R5G6B5toA8R8G8B8 sP sN) ∧
        convert_viaFormat sP ECF_R5G6B5 sN dP ECF_R8G8B8 =
          writeBytes dP 0 (convert_R5G6B5toR8G8B8 sP sN) ∧
        convert_viaFormat sP ECF_A8R8G8B8 sN dP ECF_A1R5G5B5 =
          writeBytes dP 0 (convert_A8R8G8B8toA1R5G5B5 sP sN) ∧
        convert_viaFormat sP ECF_A8R8G8B8 sN dP ECF_R5G6B5 =
          writeBytes dP 0 (convert_A8R8G8B8toR5G6B5 sP sN) ∧
        convert_viaFormat sP ECF_A8R8G8B8 sN dP ECF_A8R8G8B8 =
          writeBytes dP 0 (convert_A8R8G8B8toA8R8G8B8 sP sN) ∧
        convert_viaFormat sP ECF_A8R8G8B8 sN dP ECF_R8G8B8 =
          writeBytes dP 0 (convert_A8R8G8B8toR8G8B8 sP sN) ∧
        convert_viaFormat sP ECF_R8G8B8 sN dP ECF_A1R5G5B5 =
          writeBytes dP 0 (convert_R8G8B8toA1R5G5B5 sP sN) ∧
        convert_viaFormat sP ECF_R8G8B8 sN dP ECF_R5G6B5 =
          writeBytes dP 0 (convert_R8G8B8toR5G6B5 sP sN) ∧
        convert_viaFormat sP ECF_R8G8B8 sN dP ECF_A8R8G8B8 =
          writeBytes dP 0 (convert_R8G8B8toA8R8G8B8 sP sN) ∧
        convert_viaFormat sP ECF_R8G8B8 sN dP ECF_R8G8B8 =
          writeBytes dP 0 (convert_R8G8B8toR8G8B8 sP sN)) := by
  constructor
  · intro sF dF h sP sN dP
    cases sF <;> cases dF <;> (try rfl) <;> simp [canConvertFormat] at h
  · intro sP sN dP
    exact ⟨rfl, rfl, rfl, rfl, rfl, rfl, rfl, rfl, rfl, rfl, rfl, rfl, rfl,
      rfl, rfl, rfl⟩

/-- Closed witness for C3: on the unsupported pair (Indexed8, RGB888) the
dispatcher leaves the destination untouched, and on the supported pair
(ARGB1555, RGB888) it writes the stream codec's output. -/
theorem convert_viaFormat_dispatch_witness :
    convert_viaFormat [0x00, 0x7C] ECF_Indexed8 1 [7, 7, 7] ECF_R8G8B8 =
      [7, 7, 7] ∧
    convert_viaFormat [0x00, 0x7C] ECF_A1R5G5B5 1 [7, 7, 7] ECF_R8G8B8 =
      writeBytes [7, 7, 7] 0 (convert_A1R5G5B5toR8G8B8 [0x00, 0x7C] 1) :=
  ⟨convert_viaFormat_dispatch.1 ECF_Indexed8 ECF_R8G8B8 (by decide)
      [0x00, 0x7C] 1 [7, 7, 7],
    (convert_viaFormat_dispatch.2 [0x00, 0x7C] 1 [7, 7, 7]).2.2.2.1⟩

/-- C6: for `convert16BitTo16Bit` and for `convert24BitTo24Bit` on its
straight-copy path (`bgr = false`), on a destination of the exact pixel
extent, destination row `r` receives, byte for byte, source row
`height - 1 - r` when `flip` is true and source row `r` when `flip` is
false (the row payloads `row16` / `row24` are verbatim copies of the
source row's bytes). -/
theorem scanline_flip_row_placement :
    (∀ (inB outB : List Nat) (width height linepad : Nat) (flip : Bool),
        outB.length = 2 * width * height →
        convert16BitTo16Bit (some inB) (some outB) width height linepad flip =
          some (((List.range height).map (fun r =>
            row16 inB width ((if flip then height - 1 - r else r) *
              (2 * width + 2 * linepad)))).flatten)) ∧
    (∀ (inB outB : List Nat) (width height linepad : Nat) (flip : Bool),
        outB.length = 3 * width * height →
        convert24BitTo24Bit (some inB) (some outB) width height linepad flip false =
          some (((List.range height).map (fun r =>
            row24 inB false width ((if flip then height - 1 - r else r) *
              (3 * width + linepad)))).flatten)) :=
  ⟨fun inB outB w h lp flip hl => convert16BitTo16Bit_eq inB outB w h lp flip hl,
    fun inB outB w h lp flip hl => convert24BitTo24Bit_eq inB outB w h lp flip false hl⟩

/-- Closed witness for C6: with `flip = true`, `width = 1` (two bytes per
16-bit row), `height = 2`, `linepad = 0`, the source rows [AA, AA][BB, BB]
land as [BB, BB][AA, AA]. -/
theorem scanline_flip_row_placement_witness :
    convert16BitTo16Bit (some [0xAA, 0xAA, 0xBB, 0xBB]) (some [0, 0, 0, 0])
        1 2 0 true =
      some (((List.range 2).map (fun r =>
        row16 [0xAA, 0xAA, 0xBB, 0xBB] 1 ((if true then 2 - 1 - r else r) *
          (2 * 1 + 2 * 0)))).flatten) ∧
    (((List.range 2).map (fun r =>
        row16 [0xAA, 0xAA, 0xBB, 0xBB] 1 ((if true then 2 - 1 - r else r) *
          (2 * 1 + 2 * 0)))).flatten) = [0xBB, 0xBB, 0xAA, 0xAA] :=
  ⟨scanline_flip_row_placement.1 [0xAA, 0xAA, 0xBB, 0xBB] [0, 0, 0, 0]
      1 2 0 true (by decide), by decide⟩

/-- C7 counterexample: the claim states that every scanline copy advances
the source by exactly `linepad` bytes after each row.  On
`convert16BitTo16Bit` with `width = 1`, `height = 2`, `linepad = 1`,
`flip = false` and source bytes [1, 2, 3, 4, 5, 6, 7, 8], the second
destination row is [5, 6] — the source advanced by 2 bytes of padding
(one `s16` element) — whereas a 1-byte advance would give [4, 5]. -/
theorem linepad_not_bytes_counterexample :
    convert16BitTo16Bit (some [1, 2, 3, 4, 5, 6, 7, 8]) (some [0, 0, 0, 0])
        1 2 1 false = some [1, 2, 5, 6] ∧
    convert16BitTo16Bit (some [1, 2, 3, 4, 5, 6, 7, 8]) (some [0, 0, 0, 0])
        1 2 1 false ≠ some [1, 2, 4, 5] := by
  decide

/-- C7 (amended): after each row the source advances by `linepad` source
*elements*, not bytes: `linepad` bytes for the `u8*`-based walks
(`convert8BitTo24Bit`, `convert8BitTo32Bit`, `convert24BitTo24Bit`),
`2 * linepad` bytes for `convert16BitTo16Bit` (`s16*`) and `4 * linepad`
bytes for `convert32BitTo32Bit` (`s32*`); equivalently, source row `y`
starts at byte offset `y * (rowPixelBytes + padBytes)` with the
per-function `padBytes` above, regardless of `flip`. -/
theorem scanline_source_stride :
    (∀ (inB outB : List Nat) (width height : Nat) (pal : Option (List Nat))
        (linepad : Nat) (flip : Bool),
        outB.length = 3 * width * height →
        convert8BitTo24Bit (some inB) (some outB) width height pal linepad flip =
          some (((List.range height).map (fun r =>
            row8to24 inB pal width ((if flip then height - 1 - r else r) *
              (width + linepad)))).flatten)) ∧
    (∀ (inB outB : List Nat) (width height : Nat) (pal : Option (List Nat))
        (linepad : Nat) (flip : Bool),
        outB.length = 4 * width * height →
        convert8BitTo32Bit (some inB) (some outB) width height pal linepad flip =
          some (((List.range height).map (fun r =>
            row8to32 inB pal width ((if flip then height - 1 - r else r) *
              (width + linepad)))).flatten)) ∧
    (∀ (inB outB : List Nat) (width height linepad : Nat) (flip : Bool),
        outB.length = 2 * width * height →
        convert16BitTo16Bit (some inB) (some outB) width height linepad flip =
          some (((List.range height).map (fun r =>
            row16 inB width ((if flip then height - 1 - r else r) *
              (2 * width + 2 * linepad)))).flatten)) ∧
    (∀ (inB outB : List Nat) (width height linepad : Nat) (flip bgr : Bool),
        outB.length = 3 * width * height →
        convert24BitTo24Bit (some inB) (some outB) width height linepad flip bgr =
          some (((List.range height).map (fun r =>
            row24 inB bgr width ((if flip then height - 1 - r else r) *
              (3 * width + linepad)))).flatten)) ∧
    (∀ (inB outB : List Nat) (width height linepad : Nat) (flip : Bool),
        outB.length = 4 * width * height →
        convert32BitTo32Bit (some inB) (some outB) width height linepad flip =
          some (((List.range height).map (fun r =>
            row32 inB width ((if flip then height - 1 - r else r) *
              (4 * width + 4 * linepad)))).flatten)) :=
  ⟨fun inB outB w h pal lp flip hl => convert8BitTo24Bit_eq inB outB w h pal lp flip hl,
    fun inB outB w h pal lp flip hl => convert8BitTo32Bit_eq inB outB w h pal lp flip hl,
    fun inB outB w h lp flip hl => convert16BitTo16Bit_eq inB outB w h lp flip hl,
    fun inB outB w h lp flip bgr hl => convert24BitTo24Bit_eq inB outB w h lp flip bgr hl,
    fun inB outB w h lp flip hl => convert32BitTo32Bit_eq inB outB w h lp flip hl⟩

/-- Closed witness for the amended C7: the 16-bit characterization at
`width = 1`, `height = 2`, `linepad = 1`, `flip = false` — the second row
reads from source byte offset `1 * (2 * 1 + 2 * 1) = 4`. -/
theorem scanline_source_stride_witness :
    convert16BitTo16Bit (some [1, 2, 3, 4, 5, 6, 7, 8]) (some [0, 0, 0, 0])
        1 2 1 false =
      some (((List.range 2).map (fun r =>
        row16 [1, 2, 3, 4, 5, 6, 7, 8] 1 ((if false then 2 - 1 - r else r) *
          (2 * 1 + 2 * 1)))).flatten) ∧
    (((List.range 2).map (fun r =>
        row16 [1, 2, 3, 4, 5, 6, 7, 8] 1 ((if false then 2 - 1 - r else r) *
          (2 * 1 + 2 * 1)))).flatten) = [1, 2, 5, 6] :=
  ⟨scanline_source_stride.2.2.1 [1, 2, 3, 4, 5, 6, 7, 8] [0, 0, 0, 0]
      1 2 1 false (by decide), by decide⟩

/-- C9: each of the five scanline entry points is a silent no-op — the
destination is returned unchanged and no error is signalled — whenever the
source pointer is null, the destination pointer is null, the width is
zero, or the height is zero. -/
theorem scanline_degenerate_noop :
    (∀ (inP outP : Option (List Nat)) (width height : Nat)
        (pal : Option (List Nat)) (linepad : Nat) (flip : Bool),
        inP = none ∨ outP = none ∨ width = 0 ∨ height = 0 →
        convert8BitTo24Bit inP outP width height pal linepad flip = outP) ∧
    (∀ (inP outP : Option (List Nat)) (width height : Nat)
        (pal : Option (List Nat)) (linepad : Nat) (flip : Bool),
        inP = none ∨ outP = none ∨ width = 0 ∨ height = 0 →
        convert8BitTo32Bit inP outP width height pal linepad flip = outP) ∧
    (∀ (inP outP : Option (List Nat)) (width height linepad : Nat) (flip : Bool),
        inP = none ∨ outP = none ∨ width = 0 ∨ height = 0 →
        convert16BitTo16Bit inP outP width height linepad flip = outP) ∧
    (∀ (inP outP : Option (List Nat)) (width height linepad : Nat) (flip bgr : Bool),
        inP = none ∨ outP = none ∨ width = 0 ∨ height = 0 →
        convert24BitTo24Bit inP outP width height linepad flip bgr = outP) ∧
    (∀ (inP outP : Option (List Nat)) (width height linepad : Nat) (flip : Bool),
        inP = none ∨ outP = none ∨ width = 0 ∨ height = 0 →
        convert32BitTo32Bit inP outP width height linepad flip = outP) := by
  refine ⟨?_, ?_, ?_, ?_, ?_⟩
  · intro inP outP width height pal linepad flip h
    cases inP with
    | none => cases outP <;> rfl
    | some inB =>
      cases outP with
      | none => rfl
      | some outB =>
        rcases h with h | h | h | h
        · exact absurd h (by simp)
        · exact absurd h (by simp)
        · subst h
          simp only [convert8BitTo24Bit]
          exact congrArg some (blitLoop_empty_rows _ _ _ _ (fun i => rfl) _ _ _ _)
        · subst h
          rfl
  · intro inP outP width height pal linepad flip h
    cases inP with
    | none => cases outP <;> rfl
    | some inB =>
      cases outP with
      | none => rfl
      | some outB =>
        rcases h with h | h | h | h
        · exact absurd h (by simp)
        · exact absurd h (by simp)
        · subst h
          simp only [convert8BitTo32Bit]
          exact congrArg some (blitLoop_empty_rows _ _ _ _ (fun i => rfl) _ _ _ _)
        · subst h
          rfl
  · intro inP outP width height linepad flip h
    cases inP with
    | none => cases outP <;> rfl
    | some inB =>
      cases outP with
      | none => rfl
      | some outB =>
        rcases h with h | h | h | h
        · exact absurd h (by simp)
        · exact absurd h (by simp)
        · subst h
          simp only [convert16BitTo16Bit]
          exact congrArg some (blitLoop_empty_rows _ _ _ _ (fun i => rfl) _ _ _ _)
        · subst h
          rfl
  · intro inP outP width height linepad flip bgr h
    cases inP with
    | none => cases outP <;> rfl
    | some inB =>
      cases outP with
      | none => rfl
      | some outB =>
        rcases h with h | h | h | h
        · exact absurd h (by simp)
        · exact absurd h (by simp)
        · subst h
          simp only [convert24BitTo24Bit]
          exact congrArg some
            (blitLoop_empty_rows _ _ _ _ (fun i => by cases bgr <;> rfl) _ _ _ _)
        · subst h
          rfl
  · intro inP outP width height linepad flip h
    cases inP with
    | none => cases outP <;> rfl
    | some inB =>
      cases outP with
      | none => rfl
      | some outB =>
        rcases h with h | h | h | h
        · exact absurd h (by simp)
        · exact absurd h (by simp)
        · subst h
          simp only [convert32BitTo32Bit]
          exact congrArg some (blitLoop_empty_rows _ _ _ _ (fun i => rfl) _ _ _ _)
        · subst h
          rfl

/-- Closed witness for C9: a null source pointer and a zero width each
leave the destination untouched. -/
theorem scanline_degenerate_noop_witness :
    convert8BitTo24Bit none (some [9, 9, 9]) 1 1 none 0 false = some [9, 9, 9] ∧
    convert16BitTo16Bit (some [1, 2]) (some [9, 9]) 0 1 0 false = some [9, 9] :=
  ⟨scanline_degenerate_noop.1 none (some [9, 9, 9]) 1 1 none 0 false (Or.inl rfl),
    scanline_degenerate_noop.2.2.1 (some [1, 2]) (some [9, 9]) 0 1 0 false
      (Or.inr (Or.inr (Or.inl rfl)))⟩

/-- C10: with a null palette, `convert8BitTo24Bit` replicates each source
byte `c` into the three bytes [c, c, c] of the corresponding destination
pixel, and `convert8BitTo32Bit` stores for each source byte `c` the 32-bit
value `0xFF000000 ||| (c <<< 16) ||| (c <<< 8) ||| c`, for every width,
height, linepad and flip setting; the final conjunct reads the stored
little-endian bytes back as that 32-bit value for every byte `c < 256`. -/
theorem palette_null_greyscale :
    (∀ (inB outB : List Nat) (width height linepad : Nat) (flip : Bool),
        outB.length = 3 * width * height →
        convert8BitTo24Bit (some inB) (some outB) width height none linepad flip =
          some (((List.range height).map (fun r =>
            (List.range width).flatMap (fun k =>
              let c := getByte inB
                ((if flip then height - 1 - r else r) * (width + linepad) + k)
              [c, c, c]))).flatten)) ∧
    (∀ (inB outB : List Nat) (width height linepad : Nat) (flip : Bool),
        outB.length = 4 * width * height →
        convert8BitTo32Bit (some inB) (some outB) width height none linepad flip =
          some (((List.range height).map (fun r =>
            (List.range width).flatMap (fun k =>
              let c := getByte inB
                ((if flip then height - 1 - r else r) * (width + linepad) + k)
              u32leBytes ((0xFF000000 ||| (c <<< 16) ||| (c <<< 8) ||| c) %
                4294967296)))).flatten)) ∧
    (∀ c : Nat, c < 256 →
        readU32le (u32leBytes ((0xFF000000 ||| (c <<< 16) ||| (c <<< 8) ||| c) %
          4294967296)) 0 = 0xFF000000 ||| (c <<< 16) ||| (c <<< 8) ||| c) := by
  refine ⟨?_, ?_, ?_⟩
  · intro inB outB width height linepad flip hlen
    rw [convert8BitTo24Bit_eq inB outB width height none linepad flip hlen]
    rfl
  · intro inB outB width height linepad flip hlen
    rw [convert8BitTo32Bit_eq inB outB width height none linepad flip hlen]
    rfl
  · intro c hc
    have hv : 0xFF000000 ||| (c <<< 16) ||| (c <<< 8) ||| c < 4294967296 := by
      have h1 : (0xFF000000 : Nat) < 2 ^ 32 := by decide
      have h2 : c <<< 16 < 2 ^ 32 := by rw [Nat.shiftLeft_eq]; omega
      have h3 : c <<< 8 < 2 ^ 32 := by rw [Nat.shiftLeft_eq]; omega
      have h4 : c < 2 ^ 32 := by omega
      exact Nat.or_lt_two_pow (Nat.or_lt_two_pow (Nat.or_lt_two_pow h1 h2) h3) h4
    rw [Nat.mod_eq_of_lt hv, readU32le_u32leBytes _ hv]

/-- Closed witness for C10: the null-palette expansion at `width = 2`,
`height = 1`, source bytes [3, 250]. -/
theorem palette_null_greyscale_witness :
    convert8BitTo24Bit (some [3, 250]) (some [0, 0, 0, 0, 0, 0]) 2 1 none 0 false =
      some (((List.range 1).map (fun r =>
        (List.range 2).flatMap (fun k =>
          let c := getByte [3, 250] ((if false then 1 - 1 - r else r) * (2 + 0) + k)
          [c, c, c]))).flatten) ∧
    (((List.range 1).map (fun r =>
        (List.range 2).flatMap (fun k =>
          let c := getByte [3, 250] ((if false then 1 - 1 - r else r) * (2 + 0) + k)
          [c, c, c]))).flatten) = [3, 3, 3, 250, 250, 250] ∧
    readU32le (u32leBytes ((0xFF000000 ||| (250 <<< 16) ||| (250 <<< 8) ||| 250) %
      4294967296)) 0 = 0xFF000000 ||| (250 <<< 16) ||| (250 <<< 8) ||| 250 :=
  ⟨palette_null_greyscale.1 [3, 250] [0, 0, 0, 0, 0, 0] 2 1 0 false (by decide),
    by decide,
    palette_null_greyscale.2.2 250 (by decide)⟩

/-- C8 counterexample: the claim states that `resizeConvert1555to8888`
expands the source alpha bit to an alpha byte 0x00 or 0xFF (the §4.2
expansion, `A1R5G5B5toA8R8G8B8`).  On the 2×2 source whose pixel (0, 0) is
0x8000 (alpha set, R = G = B = 0), the destination pixel (0, 0) is
0x80000000 — the alpha bit was moved to bit 31 only — while the claimed
expansion yields 0xFF000000. -/
theorem resize_alpha_counterexample :
    (convert16bitToA8R8G8B8andResize [0x8000, 0, 0, 0] (List.replicate 16 0)
        4 4 2 2).getD 0 0 = 0x80000000 ∧
    A1R5G5B5toA8R8G8B8 ([0x8000, 0, 0, 0].getD ((0 / 2) * 2 + 0 / 2) 0) =
      0xFF000000 ∧
    (convert16bitToA8R8G8B8andResize [0x8000, 0, 0, 0] (List.replicate 16 0)
        4 4 2 2).getD 0 0 ≠
      A1R5G5B5toA8R8G8B8 ([0x8000, 0, 0, 0].getD ((0 / 2) * 2 + 0 / 2) 0) := by
  decide

set_option maxHeartbeats 1600000 in
/-- Evaluation table of the 2×2 → 4×4 resize on an arbitrary source. -/
theorem resize_2x2_table (p0 p1 p2 p3 : Nat) :
    convert16bitToA8R8G8B8andResize [p0, p1, p2, p3] (List.replicate 16 0)
        4 4 2 2 =
      [resizeExpand p0, resizeExpand p0, resizeExpand p1, resizeExpand p1,
       resizeExpand p0, resizeExpand p0, resizeExpand p1, resizeExpand p1,
       resizeExpand p2, resizeExpand p2, resizeExpand p3, resizeExpand p3,
       resizeExpand p2, resizeExpand p2, resizeExpand p3, resizeExpand p3] := by
  rfl

/-- C8 (amended): `convert16bitToA8R8G8B8andResize` from any 2×2 ARGB1555
source to a 4×4 ARGB8888 destination writes at every destination
coordinate (dx, dy) the expansion `resizeExpand` of the source pixel at
(dx / 2, dy / 2): each 5-bit R, G, B field shifted left by 3 into its
8-bit channel, and the alpha bit placed at bit 31 (alpha byte 0x80 or
0x00, not 0xFF). -/
theorem resize_2x2_to_4x4_nearest (p0 p1 p2 p3 dx dy : Nat)
    (hdx : dx < 4) (hdy : dy < 4) :
    (convert16bitToA8R8G8B8andResize [p0, p1, p2, p3] (List.replicate 16 0)
        4 4 2 2).getD (dy * 4 + dx) 0 =
      resizeExpand ([p0, p1, p2, p3].getD ((dy / 2) * 2 + dx / 2) 0) := by
  rw [resize_2x2_table p0 p1 p2 p3]
  interval_cases dx <;> interval_cases dy <;> rfl

/-- Closed witness for the amended C8 at (dx, dy) = (3, 3). -/
theorem resize_2x2_to_4x4_nearest_witness :
    (convert16bitToA8R8G8B8andResize [1, 2, 3, 4] (List.replicate 16 0)
        4 4 2 2).getD (3 * 4 + 3) 0 =
      resizeExpand ([1, 2, 3, 4].getD ((3 / 2) * 2 + 3 / 2) 0) :=
  resize_2x2_to_4x4_nearest 1 2 3 4 3 3 (by decide) (by decide)

end video
